import Mathlib

set_option maxHeartbeats 1000000

/-!
Shallow embedding of the app-distribution-server API router
(`src/app_distribution_server/routers/api_router.py`) together with the
storage / build-info operations it calls.  The persistent filesystem state
(upload directories, the global tag-set file, the bundle-to-latest-upload
index file) is made explicit as a `Store` value; raised `HTTPException`s and
the typed errors from `errors.py` become an `ApiError` sum; every stateful
route returns an `Except` result paired with the post-state.
-/

/-- Modelled from the spec: the `Platform` enum of `build_info.py`
(not under src/), with members `ios` and `android` whose string values are
used by the platform filter in the listing route. -/
inductive Platform
  | ios
  | android
deriving DecidableEq

/-- Modelled from the spec: `Platform.value`, the string value of the enum
member (`"ios"` / `"android"`). -/
def Platform.value : Platform → String
  | .ios => "ios"
  | .android => "android"

/-- Modelled from the spec: the `BuildInfo` record of `build_info.py`
(not under src/).  Fields are the ones the router reads or writes:
`upload_id` (content hash of the raw artifact bytes), `platform`,
`bundle_id`, `bundle_version`, `app_name` and `tags`.  The `created_at`
timestamp and the `icon` blob are never consulted by any router logic
verified here and are elided. -/
structure BuildInfo where
  upload_id : String
  platform : Platform
  bundle_id : String
  bundle_version : String
  app_name : String
  tags : List String
deriving DecidableEq

/-- Modelled from the spec: the raw uploaded archive bytes, abstracted by the
outcome the extractors of §4.1–§4.4 produce on them: the buffer is either not
a valid container, a container lacking a required identity field, or a valid
build whose identity fields and content hash are as recorded.  The router
never inspects the bytes itself; it only passes them to `get_build_info`
and `save_upload`, so this abstraction is faithful for the router logic. -/
inductive ArchiveContent
  | malformed
  | missingIdentity (content_hash : String)
  | valid (content_hash bundle_id bundle_version app_name : String)
deriving DecidableEq

/-- Error outcomes of the router operations: the typed errors imported from
`errors.py` and the `HTTPException`s raised inline in `api_router.py`,
identified by their detail message. -/
inductive ApiError
  | invalidFileType
  | malformedArchive
  | missingIdentityFields
  | invalidTags (ts : List String)
  | emptyNewTag
  | oldTagNotFound
  | newTagExists
  | updateFailed
  | buildInfoDecodeFailed
  | notFound
deriving DecidableEq

/-- Modelled from the spec: one on-disk upload record (§3, §6 layout): the
file names stored in the upload's directory and its serialized `BuildInfo`
metadata side-file.  `info = none` stands for a record whose metadata
side-file cannot be decoded (so `load_build_info` raises on it). -/
structure StoredUpload where
  files : List String
  info : Option BuildInfo
deriving DecidableEq

/-- Modelled from the spec: the whole persistent state (§6 on-disk layout):
upload directories keyed by `upload_id`, the global tag-set file, and the
bundle-to-latest-upload index file. -/
structure Store where
  uploads : List (String × StoredUpload)
  allTags : List String
  latestIndex : List (String × String)
deriving DecidableEq

deriving instance DecidableEq for Except

/-- Character-level test whether the second list is a prefix of the first,
used to implement python's `str.startswith` / `str.endswith`. -/
def starts_with_chars : List Char → List Char → Bool
  | _, [] => true
  | [], _ :: _ => false
  | c :: cs, d :: ds => c = d && starts_with_chars cs ds

/-- Python's `str.startswith(pre)` over the string's characters. -/
def py_startswith (s pre : String) : Bool :=
  starts_with_chars s.data pre.data

/-- Python's `str.endswith(suf)` over the string's characters. -/
def py_endswith (s suf : String) : Bool :=
  starts_with_chars s.data.reverse suf.data.reverse

/-- Drop leading whitespace characters. -/
def drop_leading_ws : List Char → List Char
  | [] => []
  | c :: cs => if c.isWhitespace then drop_leading_ws cs else c :: cs

/-- Python's `str.strip()`: the string with leading and trailing whitespace
removed. -/
def py_strip (s : String) : String :=
  String.mk ((drop_leading_ws (drop_leading_ws s.data).reverse).reverse)

/-- Python's `str.lower()` over the string's characters. -/
def py_lower (s : String) : String :=
  String.mk (s.data.map Char.toLower)

/-- Association-list lookup used for the upload directory map and the
bundle-to-latest index. -/
def lookup_assoc {α : Type} : List (String × α) → String → Option α
  | [], _ => none
  | (k, v) :: rest, key => if k = key then some v else lookup_assoc rest key

/-- Association-list update used for the bundle-to-latest index. -/
def set_assoc : List (String × String) → String → String → List (String × String)
  | [], key, v => [(key, v)]
  | (k, w) :: rest, key, v =>
      if k = key then (key, v) :: rest else (k, w) :: set_assoc rest key v

/-- Modelled from the spec: `get_build_info` of `build_info.py` (not under
src/): open the archive, extract identity metadata for the given platform and
derive `upload_id` as the content hash of the raw bytes (§4.2–§4.4); a
structural decode failure and a missing identity field are typed errors. -/
def get_build_info (platform : Platform) (content : ArchiveContent) :
    Except ApiError BuildInfo :=
  match content with
  | .malformed => .error .malformedArchive
  | .missingIdentity _ => .error .missingIdentityFields
  | .valid h b v n =>
      .ok { upload_id := h, platform := platform, bundle_id := b,
            bundle_version := v, app_name := n, tags := [] }

/-- Name of the serialized-`BuildInfo` side-file in an upload directory
(§6: "a metadata side-file holding the serialized BuildInfo"). -/
def metadata_file_name : String := "build_info.json"

/-- Modelled from the spec: `save_upload` of `storage.py` (not under src/),
i.e. `ContentStore.save` of §4.5: atomically persists the artifact (under
the uploaded file name), the serialized `BuildInfo` with its tag list, and
updates the bundle-to-latest index; a no-op if this exact `upload_id`
already exists (idempotent re-upload of identical content). -/
def save_upload (bi : BuildInfo) (file_name : String) (tags : List String)
    (st : Store) : Store :=
  match lookup_assoc st.uploads bi.upload_id with
  | some _ => st
  | none =>
      { st with
        uploads := st.uploads ++
          [(bi.upload_id,
            { files := [file_name, metadata_file_name],
              info := some { bi with tags := tags } })],
        latestIndex := set_assoc st.latestIndex bi.bundle_id bi.upload_id }

/-- Modelled from the spec: `load_build_info` of `storage.py` (not under
src/): deserializes the metadata side-file of the given upload; raises
`NotFound` for an unknown id and a decode error for a record whose metadata
cannot be decoded. -/
def load_build_info (upload_id : String) (st : Store) :
    Except ApiError BuildInfo :=
  match lookup_assoc st.uploads upload_id with
  | none => .error .notFound
  | some u =>
      match u.info with
      | some bi => .ok bi
      | none => .error .buildInfoDecodeFailed

/-- Modelled from the spec: `get_upload_asserted_platform` of `storage.py`
(not under src/), i.e. `asserted_platform` of §4.5: convenience
existence-and-type check that fails `NotFound` when the upload (or its
readable metadata) does not exist. -/
def get_upload_asserted_platform (upload_id : String) (st : Store) :
    Except ApiError Platform :=
  match lookup_assoc st.uploads upload_id with
  | none => .error .notFound
  | some u =>
      match u.info with
      | some bi => .ok bi.platform
      | none => .error .notFound

/-- Modelled from the spec: `get_latest_upload_id_by_bundle_id` of
`storage.py` (not under src/): read the bundle-to-latest index entry
(§4.5 `latest_upload_for_bundle`), `none` when absent. -/
def get_latest_upload_id_by_bundle_id (bundle_id : String) (st : Store) :
    Option String :=
  lookup_assoc st.latestIndex bundle_id

/-- Modelled from the spec: `list_all_uploaded_files` of `storage.py`
(not under src/), i.e. `ContentStore.list` of §4.5: the mapping
`upload_id → sequence of stored file names`, in storage order. -/
def list_all_uploaded_files (st : Store) : List (String × List String) :=
  st.uploads.map (fun p => (p.1, p.2.files))

/-- Modelled from the spec: `get_all_tags` of `storage.py` (not under src/):
the global tag set (§4.6 `all_tags`). -/
def get_all_tags (st : Store) : List String :=
  st.allTags

/-- Modelled from the spec: `tag_exists` of `storage.py` (not under src/):
membership in the global tag set (§4.6). -/
def tag_exists (t : String) (st : Store) : Bool :=
  st.allTags.contains t

/-- Modelled from the spec: `add_tag` of `storage.py` (not under src/),
§4.6 `add_tag`: `false` (no state change) if already present, otherwise
appends to the global tag set. -/
def add_tag (t : String) (st : Store) : Bool × Store :=
  if st.allTags.contains t then (false, st)
  else (true, { st with allTags := st.allTags ++ [t] })

/-- Replace every occurrence of `old` by `new` in a list of tag names. -/
def rename_in_list (old new : String) (l : List String) : List String :=
  l.map (fun t => if t = old then new else t)

/-- Rename `old` to `new` in one stored upload's serialized tag list. -/
def cascade_record (old new : String) (u : StoredUpload) : StoredUpload :=
  { u with
    info := u.info.map (fun bi =>
      { bi with tags := rename_in_list old new bi.tags }) }

/-- Rename `old` to `new` in one upload-directory entry. -/
def cascade_entry (old new : String) (p : String × StoredUpload) :
    String × StoredUpload :=
  (p.1, cascade_record old new p.2)

/-- The committed result of a tag rename: `old` replaced by `new` in the
global tag set and in every upload's stored tag-membership list. -/
def cascade_rename (old new : String) (st : Store) : Store :=
  { st with
    allTags := rename_in_list old new st.allTags,
    uploads := st.uploads.map (cascade_entry old new) }

/-- Modelled from the spec: `update_tag` of `storage.py` (not under src/),
§4.6 `rename_tag` cascade: on success atomically replaces `old` by `new` in
the global tag set and in every upload's stored tag-membership list
(all-or-nothing); returns `false` with the state unchanged when `old` is not
in the global set. -/
def storage_update_tag (old new : String) (st : Store) : Bool × Store :=
  if st.allTags.contains old then (true, cascade_rename old new st)
  else (false, st)

/-- Modelled from the spec: `get_absolute_url` of `config.py` (not under
src/): resolves a path against the configured public base URL. -/
def server_base_url : String := "http://localhost"

/-- Modelled from the spec: `get_absolute_url` of `config.py` (not under
src/): the configured base URL followed by the path. -/
def get_absolute_url (path : String) : String :=
  server_base_url ++ path

/-- Second stage of `_upload_app` (api_router.py lines 70–82), entered once
the platform has been selected from the file name: read the uploaded bytes,
extract the `BuildInfo`, set its tags to `tags or []` and save. -/
def upload_as (platform : Platform) (fn : String) (content : ArchiveContent)
    (tags : Option (List String)) (st : Store) :
    (Except ApiError BuildInfo) × Store :=
  match get_build_info platform content with
  | .error e => (.error e, st)
  | .ok bi0 =>
      let bi := { bi0 with tags := tags.getD [] }
      (.ok bi, save_upload bi fn bi.tags st)

/-- `_upload_app` (api_router.py lines 54–82): an absent file name raises
`InvalidFileTypeError`; a `.ipa` suffix selects ios, a `.apk` suffix selects
android, anything else raises `InvalidFileTypeError`; only then are the
uploaded bytes read, parsed and saved. -/
def _upload_app (filename : Option String) (content : ArchiveContent)
    (tags : Option (List String)) (st : Store) :
    (Except ApiError BuildInfo) × Store :=
  match filename with
  | none => (.error .invalidFileType, st)
  | some fn =>
      if py_endswith fn ".ipa" then upload_as Platform.ios fn content tags st
      else if py_endswith fn ".apk" then upload_as Platform.android fn content tags st
      else (.error .invalidFileType, st)

/-- The list comprehension `[t.strip() for t in tags if t.strip()]` of the
upload routes: keep the stripped form of every entry whose stripped form is
non-empty. -/
def valid_tags_of (ts : List String) : List String :=
  ts.filterMap (fun t => if py_strip t = "" then none else some (py_strip t))

/-- The `invalid_tags` local of the upload routes: the valid (stripped)
requested tags that are not in the global tag set. -/
def invalid_tags_of (ts : List String) (all_tags : List String) : List String :=
  (valid_tags_of ts).filter (fun t => !(all_tags.contains t))

/-- Common body of `_plaintext_post_upload` (api_router.py lines 100–114) and
`_json_api_post_upload` (lines 118–129), which duplicate this logic verbatim:
when the `tags` form field is truthy (present and non-empty), strip the
entries, drop the empty ones, reject the request with `HTTPException 400`
when any survivor is not in the global tag set; then call `_upload_app` with
the surviving tags. -/
def post_upload_body (filename : Option String) (content : ArchiveContent)
    (tags : Option (List String)) (st : Store) :
    (Except ApiError BuildInfo) × Store :=
  match tags with
  | none => _upload_app filename content (some []) st
  | some ts =>
      if ts.isEmpty then _upload_app filename content (some []) st
      else if (invalid_tags_of ts (get_all_tags st)).isEmpty then
        _upload_app filename content (some (valid_tags_of ts)) st
      else (.error (.invalidTags (invalid_tags_of ts (get_all_tags st))), st)

/-- `_plaintext_post_upload` (api_router.py lines 100–114): the common upload
body, with the successful result rendered as the absolute `/get/` URL. -/
def _plaintext_post_upload (filename : Option String) (content : ArchiveContent)
    (tags : Option (List String)) (st : Store) :
    (Except ApiError String) × Store :=
  let r := post_upload_body filename content tags st
  (r.1.map (fun bi => get_absolute_url ("/get/" ++ bi.upload_id)), r.2)

/-- `_json_api_post_upload` (api_router.py lines 118–129): the common upload
body, returning the `BuildInfo` itself. -/
def _json_api_post_upload (filename : Option String) (content : ArchiveContent)
    (tags : Option (List String)) (st : Store) :
    (Except ApiError BuildInfo) × Store :=
  post_upload_body filename content tags st

/-- `update_tag` route (api_router.py lines 262–272): a missing or
whitespace-only `new_tag` is a 400; then `new_tag` is stripped; a
non-existing `old_tag` is a 404 (`Old tag not found`); an already existing
`new_tag` is a 409 (`New tag already exists`); otherwise the storage rename
runs, its `false` result being a 400 (`Failed to update tag`). -/
def update_tag (old_tag : String) (new_tag : Option String) (st : Store) :
    (Except ApiError (String × String)) × Store :=
  match new_tag with
  | none => (.error .emptyNewTag, st)
  | some n =>
      if py_strip n = "" then (.error .emptyNewTag, st)
      else if !(tag_exists old_tag st) then (.error .oldTagNotFound, st)
      else if tag_exists (py_strip n) st then (.error .newTagExists, st)
      else
        match storage_update_tag old_tag (py_strip n) st with
        | (false, st2) => (.error .updateFailed, st2)
        | (true, st2) => (.ok (old_tag, py_strip n), st2)

/-- `api_get_latest_upload_by_bundle_id` (api_router.py lines 161–172): look
up the bundle's latest-upload index entry; a falsy result (no entry, or an
empty id) is `NotFoundError`; then the existence/type check
`get_upload_asserted_platform` runs before `load_build_info`. -/
def api_get_latest_upload_by_bundle_id (bundle_id : String) (st : Store) :
    Except ApiError BuildInfo :=
  match get_latest_upload_id_by_bundle_id bundle_id st with
  | none => .error .notFound
  | some uid =>
      if uid = "" then .error .notFound
      else
        match get_upload_asserted_platform uid st with
        | .error e => .error e
        | .ok _ => load_build_info uid st

/-- One element of the JSON array returned by the listing route. -/
structure UploadListEntry where
  upload_id : String
  file_name : String
  url : String
  build_info : BuildInfo
  tags : List String
deriving DecidableEq

/-- Loop body of `api_list_all_uploaded_files` (api_router.py lines
198–224) for one `(upload_id, files)` pair: an exception from
`load_build_info` skips the upload (`except Exception: continue`); the
platform filter and the subset tag filter skip it; otherwise one entry per
stored file name that is neither a dotfile nor a `.json` file. -/
def list_entries_for (st : Store) (pf : Option String) (tf : List String)
    (p : String × List String) : List UploadListEntry :=
  match load_build_info p.1 st with
  | .error _ => []
  | .ok bi =>
      if pf.any (fun q => py_lower bi.platform.value != q) then []
      else if !tf.isEmpty && !(tf.all (fun t => bi.tags.contains t)) then []
      else
        p.2.filterMap (fun fn =>
          if py_startswith fn "." || py_endswith fn ".json" then none
          else some { upload_id := p.1, file_name := fn,
                      url := get_absolute_url ("/get/" ++ p.1),
                      build_info := bi, tags := bi.tags })

/-- `api_list_all_uploaded_files` (api_router.py lines 189–225): normalize
the platform filter (falsy → no filter, else lower-cased) and the tag filter
(`set(t.strip() for t in tags if t.strip())`; the python set is represented
by the stripped list, whose truthiness and subset test agree with the set's),
then walk the storage listing accumulating entries. -/
def api_list_all_uploaded_files (platform : Option String)
    (tags : Option (List String)) (st : Store) : List UploadListEntry :=
  let pf : Option String :=
    match platform with
    | none => none
    | some q => if q = "" then none else some (py_lower q)
  let tf : List String :=
    match tags with
    | none => []
    | some ts => valid_tags_of ts
  (list_all_uploaded_files st).flatMap (list_entries_for st pf tf)

/-- The store with no uploads, no tags and an empty latest index. -/
def empty_store : Store :=
  { uploads := [], allTags := [], latestIndex := [] }

/-- A sample well-formed archive: content hash "h", bundle id "b",
version "v", display name "n". -/
def sample_content : ArchiveContent :=
  .valid "h" "b" "v" "n"

/-- The `BuildInfo` extracted from `sample_content` as an iOS build. -/
def sample_ios_bi : BuildInfo :=
  { upload_id := "h", platform := .ios, bundle_id := "b",
    bundle_version := "v", app_name := "n", tags := [] }

/-- The `BuildInfo` extracted from `sample_content` as an Android build. -/
def sample_android_bi : BuildInfo :=
  { upload_id := "h", platform := .android, bundle_id := "b",
    bundle_version := "v", app_name := "n", tags := [] }

/-- The store after uploading `sample_content` as `a.ipa` with no tags. -/
def sample_ios_store : Store :=
  { uploads := [("h", { files := ["a.ipa", "build_info.json"],
                        info := some sample_ios_bi })],
    allTags := [], latestIndex := [("b", "h")] }

/-- The store after uploading `sample_content` as `a.apk` with no tags. -/
def sample_android_store : Store :=
  { uploads := [("h", { files := ["a.apk", "build_info.json"],
                        info := some sample_android_bi })],
    allTags := [], latestIndex := [("b", "h")] }

/-- A store whose global tag set is exactly `{"beta"}`. -/
def beta_tag_store : Store :=
  { uploads := [], allTags := ["beta"], latestIndex := [] }

/-- A store holding one upload whose metadata side-file cannot be decoded. -/
def corrupt_store : Store :=
  { uploads := [("u1", { files := ["app.apk"], info := none })],
    allTags := [], latestIndex := [] }

/-- A store whose latest-upload index points at an upload id that no longer
exists (the upload has been deleted, the index entry was left stale). -/
def stale_index_store : Store :=
  { uploads := [], allTags := [], latestIndex := [("com.x", "u9")] }

/-- A store with one upload carrying the tag "beta", and "beta" in the
global set. -/
def beta_upload_store : Store :=
  { uploads := [("h", { files := ["a.ipa", "build_info.json"],
                        info := some { sample_ios_bi with tags := ["beta"] } })],
    allTags := ["beta"], latestIndex := [("b", "h")] }

/-- `beta_upload_store` after renaming "beta" to "beta2". -/
def beta2_upload_store : Store :=
  { uploads := [("h", { files := ["a.ipa", "build_info.json"],
                        info := some { sample_ios_bi with tags := ["beta2"] } })],
    allTags := ["beta2"], latestIndex := [("b", "h")] }

/-- A store with one Android upload tagged `["beta", "qa"]`. -/
def qa_store : Store :=
  { uploads := [("h", { files := ["app.apk", "build_info.json"],
                        info := some { sample_android_bi with tags := ["beta", "qa"] } })],
    allTags := ["beta", "qa"], latestIndex := [("b", "h")] }

/-- The single listing entry `qa_store` produces with no filters. -/
def qa_entry : UploadListEntry :=
  { upload_id := "h", file_name := "app.apk",
    url := get_absolute_url "/get/h",
    build_info := { sample_android_bi with tags := ["beta", "qa"] },
    tags := ["beta", "qa"] }

/-! ## Helper lemmas -/

theorem get_build_info_platform {p : Platform} {c : ArchiveContent}
    {bi : BuildInfo} (h : get_build_info p c = .ok bi) : bi.platform = p := by
  cases c with
  | malformed => exact absurd h (by simp [get_build_info])
  | missingIdentity h' => exact absurd h (by simp [get_build_info])
  | valid a b v n =>
      simp only [get_build_info, Except.ok.injEq] at h
      subst h
      rfl

theorem upload_as_ok_platform {p : Platform} {fn : String}
    {c : ArchiveContent} {tags : Option (List String)} {st : Store}
    {bi : BuildInfo} {st2 : Store}
    (h : upload_as p fn c tags st = (.ok bi, st2)) : bi.platform = p := by
  unfold upload_as at h
  cases hg : get_build_info p c with
  | error e => rw [hg] at h; simp at h
  | ok bi0 =>
      rw [hg] at h
      simp only [Prod.mk.injEq, Except.ok.injEq] at h
      obtain ⟨hbi, -⟩ := h
      rw [← hbi]
      simpa using get_build_info_platform hg

/-- C1: for every upload request, an absent filename or a filename whose
extension is neither `.ipa` nor `.apk` makes `_upload_app` fail with
`InvalidFileType` with the store untouched (the conclusion holds for every
archive content `c`, so the uploaded bytes are never consulted, and the
returned state is exactly the input state); a `.ipa` filename proceeds with
platform ios and a `.apk` filename with platform android. -/
theorem upload_filename_dispatch (c : ArchiveContent)
    (tags : Option (List String)) (st : Store) :
    (_upload_app none c tags st = (.error .invalidFileType, st)) ∧
    (∀ fn, py_endswith fn ".ipa" = false → py_endswith fn ".apk" = false →
      _upload_app (some fn) c tags st = (.error .invalidFileType, st)) ∧
    (∀ fn bi st2, py_endswith fn ".ipa" = true →
      _upload_app (some fn) c tags st = (.ok bi, st2) →
      bi.platform = Platform.ios) ∧
    (∀ fn bi st2, py_endswith fn ".ipa" = false → py_endswith fn ".apk" = true →
      _upload_app (some fn) c tags st = (.ok bi, st2) →
      bi.platform = Platform.android) := by
  refine ⟨rfl, ?_, ?_, ?_⟩
  · intro fn h1 h2
    simp [_upload_app, h1, h2]
  · intro fn bi st2 h1 hu
    simp only [_upload_app, h1, if_true] at hu
    exact upload_as_ok_platform hu
  · intro fn bi st2 h1 h2 hu
    simp only [_upload_app, h1, h2, Bool.false_eq_true, if_false, if_true] at hu
    exact upload_as_ok_platform hu

/-- Witness for C1 at concrete inputs: `a.txt` is rejected with the store
untouched, and a `.ipa` upload of `sample_content` yields an ios build. -/
theorem upload_filename_dispatch_witness :
    _upload_app (some "a.txt") ArchiveContent.malformed none empty_store =
      (.error .invalidFileType, empty_store) ∧
    sample_ios_bi.platform = Platform.ios := by
  constructor
  · exact (upload_filename_dispatch ArchiveContent.malformed none
      empty_store).2.1 "a.txt" (by decide) (by decide)
  · exact (upload_filename_dispatch sample_content none empty_store).2.2.1
      "a.ipa" sample_ios_bi sample_ios_store (by decide) (by decide)

theorem upload_as_error_state {p : Platform} {fn : String}
    {c : ArchiveContent} {tags : Option (List String)} {st : Store}
    {e : ApiError} {st2 : Store}
    (h : upload_as p fn c tags st = (.error e, st2)) : st2 = st := by
  unfold upload_as at h
  cases hg : get_build_info p c with
  | error e0 => rw [hg] at h; simp only [Prod.mk.injEq] at h; exact h.2.symm
  | ok bi0 => rw [hg] at h; simp at h

theorem upload_app_error_state {fn? : Option String} {c : ArchiveContent}
    {tags : Option (List String)} {st : Store} {e : ApiError} {st2 : Store}
    (h : _upload_app fn? c tags st = (.error e, st2)) : st2 = st := by
  cases fn? with
  | none =>
      simp only [_upload_app, Prod.mk.injEq] at h
      exact h.2.symm
  | some fn =>
      simp only [_upload_app] at h
      by_cases h1 : py_endswith fn ".ipa" = true
      · rw [if_pos h1] at h
        exact upload_as_error_state h
      · rw [if_neg h1] at h
        by_cases h2 : py_endswith fn ".apk" = true
        · rw [if_pos h2] at h
          exact upload_as_error_state h
        · rw [if_neg h2] at h
          simp only [Prod.mk.injEq] at h
          exact h.2.symm

theorem post_upload_body_error_state {fn? : Option String}
    {c : ArchiveContent} {tags : Option (List String)} {st : Store}
    {e : ApiError} {st2 : Store}
    (h : post_upload_body fn? c tags st = (.error e, st2)) : st2 = st := by
  cases tags with
  | none => exact upload_app_error_state h
  | some ts =>
      simp only [post_upload_body] at h
      by_cases h1 : ts.isEmpty = true
      · rw [if_pos h1] at h
        exact upload_app_error_state h
      · rw [if_neg h1] at h
        by_cases h2 : (invalid_tags_of ts (get_all_tags st)).isEmpty = true
        · rw [if_pos h2] at h
          exact upload_app_error_state h
        · rw [if_neg h2] at h
          simp only [Prod.mk.injEq] at h
          exact h.2.symm

/-- C3: whenever an upload request fails — invalid file type, malformed
archive, missing identity fields, or unknown requested tag — the store is
returned exactly as it was: the listing `list_all_uploaded_files` is
unchanged and no new upload directory exists. -/
theorem ingest_failure_leaves_state_unchanged (fn? : Option String)
    (c : ArchiveContent) (tags : Option (List String)) (st : Store) :
    ∀ e, (post_upload_body fn? c tags st).1 = .error e →
      (post_upload_body fn? c tags st).2 = st ∧
      list_all_uploaded_files (post_upload_body fn? c tags st).2 =
        list_all_uploaded_files st := by
  intro e he
  rcases hp : post_upload_body fn? c tags st with ⟨r, st2⟩
  rw [hp] at he
  have he2 : r = Except.error e := he
  subst he2
  have h2 := post_upload_body_error_state hp
  exact ⟨h2, by rw [h2]⟩

/-- Witness for C3: uploading a malformed archive named `a.ipa` into
`sample_ios_store` fails and leaves its listing unchanged. -/
theorem ingest_failure_leaves_state_unchanged_witness :
    (post_upload_body (some "a.ipa") ArchiveContent.malformed none
      sample_ios_store).2 = sample_ios_store ∧
    list_all_uploaded_files (post_upload_body (some "a.ipa")
      ArchiveContent.malformed none sample_ios_store).2 =
      list_all_uploaded_files sample_ios_store :=
  ingest_failure_leaves_state_unchanged (some "a.ipa")
    ArchiveContent.malformed none sample_ios_store
    ApiError.malformedArchive (by decide)

theorem mem_valid_tags_of {t : String} {ts : List String} (h1 : t ∈ ts)
    (h2 : py_strip t ≠ "") : py_strip t ∈ valid_tags_of ts := by
  rw [valid_tags_of, List.mem_filterMap]
  exact ⟨t, h1, by simp [h2]⟩

theorem invalid_tags_nonempty {t : String} {ts all_tags : List String}
    (h1 : t ∈ ts) (h2 : py_strip t ≠ "")
    (h3 : all_tags.contains (py_strip t) = false) :
    invalid_tags_of ts all_tags ≠ [] := by
  have hm : py_strip t ∈ invalid_tags_of ts all_tags := by
    rw [invalid_tags_of, List.mem_filter]
    refine ⟨mem_valid_tags_of h1 h2, ?_⟩
    show (!(all_tags.contains (py_strip t))) = true
    rw [h3]
    rfl
  exact List.ne_nil_of_mem hm

/-- C2: an upload request whose `tags` form field contains an entry that is
non-empty after stripping and absent from the global tag set fails with the
`Invalid tags` 400 error, with the store unchanged; the conclusion holds for
every archive content `c`, so extraction is never attempted and nothing is
stored. -/
theorem upload_unknown_tag_rejected (fn? : Option String) (ts : List String)
    (st : Store) (t : String) (h1 : t ∈ ts) (h2 : py_strip t ≠ "")
    (h3 : tag_exists (py_strip t) st = false) :
    ∀ c, post_upload_body fn? c (some ts) st =
      (.error (.invalidTags (invalid_tags_of ts (get_all_tags st))), st) := by
  intro c
  have hne : ts ≠ [] := List.ne_nil_of_mem h1
  have hinv : invalid_tags_of ts (get_all_tags st) ≠ [] :=
    invalid_tags_nonempty h1 h2 h3
  simp only [post_upload_body]
  rw [if_neg (by simpa using hne), if_neg (by simpa using hinv)]

/-- Witness for C2, matching spec scenario D: requesting the never-created
tag "ghost" on an otherwise valid `.apk` upload fails, storing nothing. -/
theorem upload_unknown_tag_rejected_witness :
    post_upload_body (some "a.apk") sample_content (some ["ghost"])
      empty_store = (.error (.invalidTags ["ghost"]), empty_store) := by
  have h := upload_unknown_tag_rejected (some "a.apk") ["ghost"] empty_store
    "ghost" (by decide) (by decide) (by decide) sample_content
  rw [show invalid_tags_of ["ghost"] (get_all_tags empty_store) = ["ghost"]
    from by decide] at h
  exact h

theorem update_tag_eq (old n : String) (st : Store) :
    update_tag old (some n) st =
      if py_strip n = "" then (.error .emptyNewTag, st)
      else if !(tag_exists old st) then (.error .oldTagNotFound, st)
      else if tag_exists (py_strip n) st then (.error .newTagExists, st)
      else (.ok (old, py_strip n), cascade_rename old (py_strip n) st) := by
  simp only [update_tag]
  by_cases h1 : py_strip n = ""
  · rw [if_pos h1, if_pos h1]
  · rw [if_neg h1, if_neg h1]
    by_cases h2 : tag_exists old st = true
    · rw [h2]
      simp only [Bool.not_true, Bool.false_eq_true, if_false]
      by_cases h3 : tag_exists (py_strip n) st = true
      · rw [if_pos h3, if_pos h3]
      · rw [if_neg h3, if_neg h3]
        have h2' : st.allTags.contains old = true := h2
        simp only [storage_update_tag, if_pos h2']
    · have h2' : tag_exists old st = false := by
        cases hb : tag_exists old st
        · rfl
        · exact absurd hb h2
      rw [h2']
      simp only [Bool.not_false, if_true]

theorem lookup_assoc_cascade (old nt : String) :
    ∀ (l : List (String × StoredUpload)) (k : String),
      lookup_assoc (l.map (cascade_entry old nt)) k =
        (lookup_assoc l k).map (cascade_record old nt) := by
  intro l
  induction l with
  | nil => intro k; rfl
  | cons p rest ih =>
      intro k
      rcases p with ⟨a, b⟩
      by_cases hk : a = k
      · simp [lookup_assoc, cascade_entry, hk]
      · simp only [List.map_cons, cascade_entry, lookup_assoc, if_neg hk]
        exact ih k

theorem mem_rename_in_list_new {old nt : String} {l : List String}
    (h : old ∈ l) : nt ∈ rename_in_list old nt l := by
  rw [rename_in_list, List.mem_map]
  exact ⟨old, h, by simp⟩

theorem not_mem_rename_in_list {old nt : String} (hne : nt ≠ old)
    (l : List String) : old ∉ rename_in_list old nt l := by
  rw [rename_in_list, List.mem_map]
  rintro ⟨x, -, hx⟩
  by_cases hxo : x = old
  · rw [if_pos hxo] at hx
    exact hne hx
  · rw [if_neg hxo] at hx
    exact hxo hx

theorem contains_eq_true_of_mem {l : List String} {a : String}
    (h : a ∈ l) : l.contains a = true := by
  simpa using h

theorem not_mem_of_contains_eq_false {l : List String} {a : String}
    (h : l.contains a = false) : a ∉ l := by
  intro hm
  rw [contains_eq_true_of_mem hm] at h
  exact Bool.noConfusion h

theorem contains_eq_false_of_not_mem {l : List String} {a : String}
    (h : a ∉ l) : l.contains a = false := by
  cases hb : l.contains a
  · rfl
  · exact absurd (by simpa using hb) h

theorem load_build_info_cascade (old nt uid : String) (st : Store) :
    load_build_info uid (cascade_rename old nt st) =
      (load_build_info uid st).map
        (fun bi => { bi with tags := rename_in_list old nt bi.tags }) := by
  simp only [load_build_info, cascade_rename]
  rw [lookup_assoc_cascade]
  cases lookup_assoc st.uploads uid with
  | none => rfl
  | some u =>
      cases hi : u.info with
      | none => simp [cascade_record, hi, Except.map]
      | some bi => simp [cascade_record, hi, Except.map]

/-- C4: after every successful `update_tag old new?` (rename), `old` no
longer exists in the global tag set, the stripped new name exists, no stored
upload's tag list still references `old`, and every stored upload's tag list
is exactly its old list with `old` replaced by the new name (so an upload
that listed `old` now lists the new name) — the cascade over the global set
and all memberships is total. -/
theorem update_tag_rename_cascade (old : String) (new? : Option String)
    (st st' : Store) (out : String × String)
    (h : update_tag old new? st = (.ok out, st')) :
    tag_exists old st' = false ∧
    tag_exists out.2 st' = true ∧
    (∀ uid bi', load_build_info uid st' = .ok bi' → old ∉ bi'.tags) ∧
    (∀ uid bi, load_build_info uid st = .ok bi →
      ∃ bi', load_build_info uid st' = .ok bi' ∧
        bi'.tags = rename_in_list old out.2 bi.tags ∧
        (old ∈ bi.tags → out.2 ∈ bi'.tags)) := by
  cases new? with
  | none => exact absurd h (by simp [update_tag])
  | some n =>
      rw [update_tag_eq] at h
      by_cases h1 : py_strip n = ""
      · rw [if_pos h1] at h
        exact absurd h (by simp)
      · rw [if_neg h1] at h
        by_cases h2 : tag_exists old st = true
        · rw [h2] at h
          simp only [Bool.not_true, Bool.false_eq_true, if_false] at h
          by_cases h3 : tag_exists (py_strip n) st = true
          · rw [if_pos h3] at h
            exact absurd h (by simp)
          · rw [if_neg h3] at h
            simp only [Prod.mk.injEq, Except.ok.injEq] at h
            obtain ⟨hout, hst⟩ := h
            subst hout
            subst hst
            have hmem : old ∈ st.allTags := by
              have := h2
              simp only [tag_exists] at this
              simpa using this
            have hnmem : py_strip n ∉ st.allTags := by
              have h3' : tag_exists (py_strip n) st = false := by
                cases hb : tag_exists (py_strip n) st
                · rfl
                · exact absurd hb h3
              simp only [tag_exists] at h3'
              exact not_mem_of_contains_eq_false h3'
            have hne : py_strip n ≠ old := fun he => hnmem (he ▸ hmem)
            refine ⟨?_, ?_, ?_, ?_⟩
            · show (cascade_rename old (py_strip n) st).allTags.contains old = false
              simp only [cascade_rename]
              exact contains_eq_false_of_not_mem
                (not_mem_rename_in_list hne st.allTags)
            · show (cascade_rename old (py_strip n) st).allTags.contains
                (py_strip n) = true
              simp only [cascade_rename]
              exact contains_eq_true_of_mem (mem_rename_in_list_new hmem)
            · intro uid bi' hb
              rw [load_build_info_cascade] at hb
              cases hl : load_build_info uid st with
              | error e =>
                  rw [hl] at hb
                  simp [Except.map] at hb
              | ok bi =>
                  rw [hl] at hb
                  simp only [Except.map, Except.ok.injEq] at hb
                  rw [← hb]
                  exact not_mem_rename_in_list hne bi.tags
            · intro uid bi hl
              refine ⟨{ bi with tags := rename_in_list old (py_strip n) bi.tags },
                ?_, rfl, ?_⟩
              · rw [load_build_info_cascade, hl]
                rfl
              · intro hmo
                exact mem_rename_in_list_new hmo
        · have h2' : tag_exists old st = false := by
            cases hb : tag_exists old st
            · rfl
            · exact absurd hb h2
          rw [h2'] at h
          simp only [Bool.not_false, if_true] at h
          exact absurd h (by simp)

/-- Witness for C4 at a concrete store: renaming "beta" to "beta2" in
`beta_upload_store` makes "beta" not exist and "beta2" exist. -/
theorem update_tag_rename_cascade_witness :
    tag_exists "beta" beta2_upload_store = false ∧
    tag_exists "beta2" beta2_upload_store = true := by
  have h := update_tag_rename_cascade "beta" (some "beta2")
    beta_upload_store beta2_upload_store ("beta", "beta2") (by decide)
  exact ⟨h.1, h.2.1⟩

/-- C5 counterexample: with global tag set exactly {"beta"}, renaming the
non-existent tag "ghost" to the existing tag "beta" fails with the 404
`Old tag not found` error, not with the 409 `New tag already exists`
conflict — refuting "fails with Conflict whenever new already exists in the
global tag set" at this input. -/
theorem update_tag_conflict_precedence_counterexample :
    tag_exists "beta" beta_tag_store = true ∧
    update_tag "ghost" (some "beta") beta_tag_store =
      (.error .oldTagNotFound, beta_tag_store) ∧
    ApiError.oldTagNotFound ≠ ApiError.newTagExists := by decide

/-- C5 amended: `update_tag` fails `NotFound` whenever `old` does not exist
(this check runs first, even when `new` exists), fails `Conflict` when `old`
exists and the stripped `new` already exists, succeeds only when `old`
exists, the stripped `new` is non-empty and does not exist, and every
failure leaves the store unchanged. -/
theorem update_tag_error_spec (old : String) (new? : Option String)
    (st : Store) :
    (∀ n, new? = some n → py_strip n ≠ "" → tag_exists old st = false →
      update_tag old new? st = (.error .oldTagNotFound, st)) ∧
    (∀ n, new? = some n → py_strip n ≠ "" → tag_exists old st = true →
      tag_exists (py_strip n) st = true →
      update_tag old new? st = (.error .newTagExists, st)) ∧
    (∀ out st', update_tag old new? st = (.ok out, st') →
      tag_exists old st = true ∧
      ∃ n, new? = some n ∧ py_strip n ≠ "" ∧
        tag_exists (py_strip n) st = false) ∧
    (∀ e st', update_tag old new? st = (.error e, st') → st' = st) := by
  refine ⟨?_, ?_, ?_, ?_⟩
  · intro n hn h1 h2
    subst hn
    rw [update_tag_eq, if_neg h1, h2]
    simp only [Bool.not_false, if_true]
  · intro n hn h1 h2 h3
    subst hn
    rw [update_tag_eq, if_neg h1, h2]
    simp only [Bool.not_true, Bool.false_eq_true, if_false]
    rw [if_pos h3]
  · intro out st' h
    cases new? with
    | none => exact absurd h (by simp [update_tag])
    | some n =>
        rw [update_tag_eq] at h
        by_cases h1 : py_strip n = ""
        · rw [if_pos h1] at h
          exact absurd h (by simp)
        · rw [if_neg h1] at h
          by_cases h2 : tag_exists old st = true
          · rw [h2] at h
            simp only [Bool.not_true, Bool.false_eq_true, if_false] at h
            by_cases h3 : tag_exists (py_strip n) st = true
            · rw [if_pos h3] at h
              exact absurd h (by simp)
            · rw [if_neg h3] at h
              have h3' : tag_exists (py_strip n) st = false := by
                cases hb : tag_exists (py_strip n) st
                · rfl
                · exact absurd hb h3
              exact ⟨h2, n, rfl, h1, h3'⟩
          · have h2' : tag_exists old st = false := by
              cases hb : tag_exists old st
              · rfl
              · exact absurd hb h2
            rw [h2'] at h
            simp only [Bool.not_false, if_true] at h
            exact absurd h (by simp)
  · intro e st' h
    cases new? with
    | none =>
        simp only [update_tag, Prod.mk.injEq] at h
        exact h.2.symm
    | some n =>
        rw [update_tag_eq] at h
        by_cases h1 : py_strip n = ""
        · rw [if_pos h1] at h
          simp only [Prod.mk.injEq] at h
          exact h.2.symm
        · rw [if_neg h1] at h
          by_cases h2 : tag_exists old st = true
          · rw [h2] at h
            simp only [Bool.not_true, Bool.false_eq_true, if_false] at h
            by_cases h3 : tag_exists (py_strip n) st = true
            · rw [if_pos h3] at h
              simp only [Prod.mk.injEq] at h
              exact h.2.symm
            · rw [if_neg h3] at h
              exact absurd h (by simp)
          · have h2' : tag_exists old st = false := by
              cases hb : tag_exists old st
              · rfl
              · exact absurd hb h2
            rw [h2'] at h
            simp only [Bool.not_false, if_true] at h
            simp only [Prod.mk.injEq] at h
            exact h.2.symm

/-- Witness for the amended C5: renaming the missing "ghost" to "x" on
`beta_tag_store` fails `Old tag not found` with the store unchanged. -/
theorem update_tag_error_spec_witness :
    update_tag "ghost" (some "x") beta_tag_store =
      (.error .oldTagNotFound, beta_tag_store) :=
  (update_tag_error_spec "ghost" (some "x") beta_tag_store).1 "x" rfl
    (by decide) (by decide)

/-- C6: `api_get_latest_upload_by_bundle_id` fails `NotFound` when the
bundle has no latest-upload index entry, and also fails `NotFound` — rather
than returning anything else — when the index entry points at an upload id
that no longer has an upload directory (the upload was deleted and the index
entry left stale). -/
theorem get_latest_notfound_cases (bundle_id : String) (st : Store) :
    (get_latest_upload_id_by_bundle_id bundle_id st = none →
      api_get_latest_upload_by_bundle_id bundle_id st = .error .notFound) ∧
    (∀ uid, get_latest_upload_id_by_bundle_id bundle_id st = some uid →
      lookup_assoc st.uploads uid = none →
      api_get_latest_upload_by_bundle_id bundle_id st = .error .notFound) := by
  constructor
  · intro h
    simp only [api_get_latest_upload_by_bundle_id, h]
  · intro uid h1 h2
    simp only [api_get_latest_upload_by_bundle_id, h1]
    by_cases he : uid = ""
    · rw [if_pos he]
    · rw [if_neg he]
      simp only [get_upload_asserted_platform, h2]

/-- Witness for C6 at `stale_index_store`: the index maps "com.x" to the
deleted upload "u9", and the lookup fails `NotFound`. -/
theorem get_latest_notfound_cases_witness :
    api_get_latest_upload_by_bundle_id "com.x" stale_index_store =
      .error .notFound :=
  (get_latest_notfound_cases "com.x" stale_index_store).2 "u9"
    (by decide) (by decide)

/-- A store holding both a corrupt upload ("u1") and a healthy one ("h"). -/
def mixed_store : Store :=
  { uploads := [("u1", { files := ["app.apk"], info := none }),
                ("h", { files := ["app.apk", "build_info.json"],
                        info := some sample_android_bi })],
    allTags := [], latestIndex := [("b", "h")] }

/-- The single listing entry `mixed_store` produces with no filters. -/
def mixed_entry : UploadListEntry :=
  { upload_id := "h", file_name := "app.apk",
    url := get_absolute_url "/get/h",
    build_info := sample_android_bi, tags := [] }

/-- C7 counterexample: `corrupt_store` stores upload "u1" whose BuildInfo
fails to load, yet the unfiltered listing returns the empty list — the
upload is silently omitted and no failure is surfaced, refuting the claim
that a load failure during listing is surfaced to the caller. -/
theorem list_swallows_load_failure_counterexample :
    load_build_info "u1" corrupt_store = .error .buildInfoDecodeFailed ∧
    ("u1", ["app.apk"]) ∈ list_all_uploaded_files corrupt_store ∧
    api_list_all_uploaded_files none none corrupt_store = [] := by decide

theorem mem_list_entries_for {st : Store} {pf : Option String}
    {tf : List String} {p : String × List String} {e : UploadListEntry}
    (h : e ∈ list_entries_for st pf tf p) :
    e.upload_id = p.1 ∧
    ∃ bi, load_build_info p.1 st = .ok bi ∧ e.tags = bi.tags ∧
      (tf.isEmpty = false →
        tf.all (fun t => bi.tags.contains t) = true) := by
  unfold list_entries_for at h
  cases hl : load_build_info p.1 st with
  | error err =>
      rw [hl] at h
      simp at h
  | ok bi =>
      rw [hl] at h
      dsimp only at h
      by_cases hpf : pf.any (fun q => py_lower bi.platform.value != q) = true
      · rw [if_pos hpf] at h
        simp at h
      · rw [if_neg hpf] at h
        by_cases htf :
            (!tf.isEmpty && !(tf.all (fun t => bi.tags.contains t))) = true
        · rw [if_pos htf] at h
          simp at h
        · rw [if_neg htf] at h
          rw [List.mem_filterMap] at h
          obtain ⟨fn, -, hsome⟩ := h
          by_cases hskip : (py_startswith fn "." || py_endswith fn ".json") = true
          · rw [if_pos hskip] at hsome
            simp at hsome
          · rw [if_neg hskip] at hsome
            simp only [Option.some.injEq] at hsome
            subst hsome
            refine ⟨rfl, bi, rfl, rfl, ?_⟩
            intro hne
            cases hall : tf.all (fun t => bi.tags.contains t)
            · exfalso
              apply htf
              rw [hne, hall]
              rfl
            · rfl

/-- C7 amended: extraction and decode failures during ingestion are
surfaced to the caller as typed failures (never a generic success), but in
the listing route a failure to load a stored upload's BuildInfo causes that
upload to be silently omitted from the result rather than surfaced: no
entry of the listing refers to it and no error is raised. -/
theorem extraction_surfaced_listing_skips (fn ch : String)
    (tags : Option (List String)) (st : Store) (uid : String) :
    (py_endswith fn ".ipa" = true ∨
        (py_endswith fn ".ipa" = false ∧ py_endswith fn ".apk" = true) →
      _upload_app (some fn) .malformed tags st =
        (.error .malformedArchive, st) ∧
      _upload_app (some fn) (.missingIdentity ch) tags st =
        (.error .missingIdentityFields, st)) ∧
    (∀ err, load_build_info uid st = .error err →
      ∀ entry, entry ∈ api_list_all_uploaded_files none none st →
        entry.upload_id ≠ uid) := by
  constructor
  · rintro (h | ⟨h1, h2⟩)
    · constructor <;> simp [_upload_app, h, upload_as, get_build_info]
    · constructor <;> simp [_upload_app, h1, h2, upload_as, get_build_info]
  · intro err herr entry hmem
    simp only [api_list_all_uploaded_files] at hmem
    rw [List.mem_flatMap] at hmem
    obtain ⟨p, hp, hep⟩ := hmem
    obtain ⟨hid, bi, hload, -, -⟩ := mem_list_entries_for hep
    intro heq
    rw [hid] at heq
    rw [heq, herr] at hload
    exact Except.noConfusion hload

/-- Witness for the amended C7: a malformed `.ipa` upload fails with the
typed `MalformedArchive` error, and in `mixed_store` (where "u1" is
corrupt) the listing entry that survives is not for "u1". -/
theorem extraction_surfaced_listing_skips_witness :
    _upload_app (some "a.ipa") ArchiveContent.malformed none empty_store =
      (.error .malformedArchive, empty_store) ∧
    mixed_entry.upload_id ≠ "u1" := by
  constructor
  · exact ((extraction_surfaced_listing_skips "a.ipa" "x" none empty_store
      "u1").1 (Or.inl (by decide))).1
  · exact (extraction_surfaced_listing_skips "a.ipa" "x" none mixed_store
      "u1").2 ApiError.buildInfoDecodeFailed (by decide) mixed_entry
      (by decide)

theorem lookup_assoc_append_self {α : Type} {l : List (String × α)}
    {k : String} (v : α) (h : lookup_assoc l k = none) :
    lookup_assoc (l ++ [(k, v)]) k = some v := by
  induction l with
  | nil => simp [lookup_assoc]
  | cons p rest ih =>
      rcases p with ⟨a, b⟩
      simp only [lookup_assoc] at h
      by_cases hk : a = k
      · rw [if_pos hk] at h
        exact absurd h (by simp)
      · rw [if_neg hk] at h
        simp only [List.cons_append, lookup_assoc, if_neg hk]
        exact ih h

theorem upload_app_ok {fn? : Option String} {c : ArchiveContent}
    {vt : List String} {st : Store} {bi : BuildInfo} {st2 : Store}
    (h : _upload_app fn? c (some vt) st = (.ok bi, st2)) :
    bi.tags = vt ∧ ∃ fn, fn? = some fn ∧ st2 = save_upload bi fn vt st := by
  have key : ∀ p fn, upload_as p fn c (some vt) st = (.ok bi, st2) →
      bi.tags = vt ∧ st2 = save_upload bi fn vt st := by
    intro p fn hp
    unfold upload_as at hp
    cases hg : get_build_info p c with
    | error e =>
        rw [hg] at hp
        simp at hp
    | ok bi0 =>
        rw [hg] at hp
        dsimp only at hp
        simp only [Prod.mk.injEq, Except.ok.injEq] at hp
        obtain ⟨hbi, hst⟩ := hp
        constructor
        · rw [← hbi]
          exact rfl
        · rw [← hbi]
          exact hst.symm
  cases fn? with
  | none => simp [_upload_app] at h
  | some fn =>
      simp only [_upload_app] at h
      by_cases h1 : py_endswith fn ".ipa" = true
      · rw [if_pos h1] at h
        exact ⟨(key _ _ h).1, fn, rfl, (key _ _ h).2⟩
      · rw [if_neg h1] at h
        by_cases h2 : py_endswith fn ".apk" = true
        · rw [if_pos h2] at h
          exact ⟨(key _ _ h).1, fn, rfl, (key _ _ h).2⟩
        · rw [if_neg h2] at h
          simp at h

theorem load_after_fresh_save {bi : BuildInfo} {fn : String}
    {vt : List String} {st : Store} (htags : bi.tags = vt)
    (hlk : lookup_assoc st.uploads bi.upload_id = none) :
    load_build_info bi.upload_id (save_upload bi fn vt st) = .ok bi := by
  unfold save_upload
  rw [hlk]
  unfold load_build_info
  dsimp only
  rw [lookup_assoc_append_self _ hlk]
  have hbi : { bi with tags := vt } = bi := by
    rw [← htags]
  rw [hbi]

/-- The store resulting from uploading `sample_content` as `a.apk` with the
duplicated tag list `["beta", "beta"]` into `beta_tag_store`. -/
def beta_dup_store : Store :=
  { uploads := [("h", { files := ["a.apk", "build_info.json"],
                        info := some { sample_android_bi with
                                       tags := ["beta", "beta"] } })],
    allTags := ["beta"], latestIndex := [("b", "h")] }

/-- C8 counterexample: requesting `["beta", "beta"]` (an existing tag named
twice) on a valid `.apk` upload succeeds and both the returned and the
stored `BuildInfo` carry the tag list `["beta", "beta"]` — the stored tags
are not duplicate-free, refuting the claim. -/
theorem duplicate_tags_stored_counterexample :
    post_upload_body (some "a.apk") sample_content (some ["beta", "beta"])
        beta_tag_store =
      (.ok { sample_android_bi with tags := ["beta", "beta"] },
        beta_dup_store) ∧
    load_build_info "h" beta_dup_store =
      .ok { sample_android_bi with tags := ["beta", "beta"] } := by decide

/-- C8 amended: on every successful upload the stored tag list is exactly
the requested list with entries stripped and empty entries dropped,
preserving order and multiplicity — a repeated name is stored repeated; the
returned `BuildInfo` carries that list and (when the upload id is fresh) is
exactly what `load_build_info` then returns. -/
theorem upload_tags_stored_verbatim (fn? : Option String)
    (c : ArchiveContent) (ts : List String) (st : Store) (bi : BuildInfo)
    (st2 : Store)
    (h : post_upload_body fn? c (some ts) st = (.ok bi, st2)) :
    bi.tags = valid_tags_of ts ∧
    (lookup_assoc st.uploads bi.upload_id = none →
      load_build_info bi.upload_id st2 = .ok bi) := by
  simp only [post_upload_body] at h
  by_cases h1 : ts.isEmpty = true
  · rw [if_pos h1] at h
    have hts : ts = [] := by simpa using h1
    subst hts
    obtain ⟨htags, fn, -, hsave⟩ := upload_app_ok h
    refine ⟨htags, ?_⟩
    intro hlk
    rw [hsave]
    exact load_after_fresh_save htags hlk
  · rw [if_neg h1] at h
    by_cases h2 : (invalid_tags_of ts (get_all_tags st)).isEmpty = true
    · rw [if_pos h2] at h
      obtain ⟨htags, fn, -, hsave⟩ := upload_app_ok h
      refine ⟨htags, ?_⟩
      intro hlk
      rw [hsave]
      exact load_after_fresh_save htags hlk
    · rw [if_neg h2] at h
      simp at h

/-- Witness for the amended C8 at the duplicated request `["beta","beta"]`:
the returned tags are the verbatim stripped list and the stored record
matches. -/
theorem upload_tags_stored_verbatim_witness :
    ({ sample_android_bi with tags := ["beta", "beta"] } : BuildInfo).tags =
      valid_tags_of ["beta", "beta"] ∧
    load_build_info "h" beta_dup_store =
      .ok { sample_android_bi with tags := ["beta", "beta"] } := by
  have h := upload_tags_stored_verbatim (some "a.apk") sample_content
    ["beta", "beta"] beta_tag_store
    { sample_android_bi with tags := ["beta", "beta"] } beta_dup_store
    (by decide)
  exact ⟨h.1, h.2 (by decide)⟩

theorem valid_tags_of_all_ws {ts : List String}
    (h : ∀ t ∈ ts, py_strip t = "") : valid_tags_of ts = [] := by
  induction ts with
  | nil => rfl
  | cons a l ih =>
      have ha := h a (List.mem_cons_self a l)
      have hl' : List.filterMap
          (fun t => if py_strip t = "" then none else some (py_strip t)) l =
            [] := ih (fun t ht => h t (List.mem_cons_of_mem a ht))
      simp [valid_tags_of, List.filterMap_cons, ha, hl']

/-- C9: requested tags that strip to the empty string are dropped before
validation: when every entry of `ts` strips to empty, the upload routes
behave exactly as an upload with no tags (so an otherwise valid upload
succeeds with an empty tag list instead of failing tag validation); on
every successful upload the stored tags are the stripped survivors, each of
which passed validation against the global tag set. -/
theorem whitespace_tags_dropped (fn? : Option String) (c : ArchiveContent)
    (ts : List String) (st : Store) :
    ((∀ t ∈ ts, py_strip t = "") →
      post_upload_body fn? c (some ts) st =
        _upload_app fn? c (some []) st) ∧
    (∀ bi st2, post_upload_body fn? c (some ts) st = (.ok bi, st2) →
      bi.tags = valid_tags_of ts ∧
      ∀ t ∈ bi.tags, (get_all_tags st).contains t = true) := by
  constructor
  · intro hws
    have hv := valid_tags_of_all_ws hws
    simp only [post_upload_body]
    by_cases h1 : ts.isEmpty = true
    · rw [if_pos h1]
    · rw [if_neg h1]
      have hinv : invalid_tags_of ts (get_all_tags st) = [] := by
        rw [invalid_tags_of, hv]
        rfl
      rw [if_pos (show (invalid_tags_of ts (get_all_tags st)).isEmpty = true
        from by rw [hinv]; rfl)]
      rw [hv]
  · intro bi st2 h
    simp only [post_upload_body] at h
    by_cases h1 : ts.isEmpty = true
    · rw [if_pos h1] at h
      have hts : ts = [] := by simpa using h1
      subst hts
      obtain ⟨htags, -⟩ := upload_app_ok h
      refine ⟨htags, ?_⟩
      intro t ht
      rw [htags] at ht
      simp at ht
    · rw [if_neg h1] at h
      by_cases h2 : (invalid_tags_of ts (get_all_tags st)).isEmpty = true
      · rw [if_pos h2] at h
        obtain ⟨htags, -⟩ := upload_app_ok h
        refine ⟨htags, ?_⟩
        intro t ht
        rw [htags] at ht
        have hinv : invalid_tags_of ts (get_all_tags st) = [] := by
          simpa using h2
        by_contra hc
        have hcf : (get_all_tags st).contains t = false := by
          cases hb : (get_all_tags st).contains t
          · rfl
          · exact absurd hb hc
        have hmi : t ∈ invalid_tags_of ts (get_all_tags st) := by
          rw [invalid_tags_of, List.mem_filter]
          refine ⟨ht, ?_⟩
          rw [hcf]
          rfl
        rw [hinv] at hmi
        simp at hmi
      · rw [if_neg h2] at h
        simp at h

/-- Witness for C9: the all-whitespace request `["  ", " "]` behaves as an
upload with no tags, and the resulting build carries the empty tag list. -/
theorem whitespace_tags_dropped_witness :
    post_upload_body (some "a.apk") sample_content (some ["  ", " "])
        empty_store =
      _upload_app (some "a.apk") sample_content (some []) empty_store ∧
    sample_android_bi.tags = valid_tags_of ["  ", " "] := by
  constructor
  · exact (whitespace_tags_dropped (some "a.apk") sample_content
      ["  ", " "] empty_store).1 (by decide)
  · exact ((whitespace_tags_dropped (some "a.apk") sample_content
      ["  ", " "] empty_store).2 sample_android_bi sample_android_store
      (by decide)).1

/-- C10: with a tag filter given to the listing route, an upload's entries
appear in the result only if every stripped filter tag is among that
upload's stored tags — the filter set must be a subset of the upload's tag
set (AND semantics), not merely intersect it. -/
theorem list_tag_filter_requires_all (platform : Option String)
    (ts : List String) (st : Store) :
    ∀ e, e ∈ api_list_all_uploaded_files platform (some ts) st →
      ∀ t, t ∈ valid_tags_of ts → e.tags.contains t = true := by
  intro e he t ht
  simp only [api_list_all_uploaded_files] at he
  rw [List.mem_flatMap] at he
  obtain ⟨p, -, hep⟩ := he
  obtain ⟨-, bi, -, htags, hall⟩ := mem_list_entries_for hep
  have hne : (valid_tags_of ts).isEmpty = false := by
    cases hvt : valid_tags_of ts with
    | nil =>
        rw [hvt] at ht
        simp at ht
    | cons a l => rfl
  have hb := hall hne
  rw [htags]
  rw [List.all_eq_true] at hb
  exact hb t ht

/-- Witness for C10: in `qa_store` the surviving entry was filtered with
`["beta", "qa"]` and indeed carries "qa". -/
theorem list_tag_filter_requires_all_witness :
    qa_entry.tags.contains "qa" = true :=
  list_tag_filter_requires_all none ["beta", "qa"] qa_store qa_entry
    (by decide) "qa" (by decide)
